import Mathlib

/-!
Verification of the eh-dynamo storage layer (DynamoDB driver for the Event
Horizon CQRS/ES toolkit).

Two components are embedded:

* the entity repository (Repo) of repo.go, embedded directly from the source:
  the DynamoDB table is a list of entities keyed by id, the table service
  calls (Get / Put / Delete / Scan) are explicit functions, and a Boolean
  fault flag models a failing table-service call so that the error
  classification performed by the Go code can be stated;

* the namespace-scoped event store.  Its implementation file is not part of
  the available sources (only its test suite is), so the event-store
  operations are modelled from the specification: validation of one
  aggregateID/aggregateType per batch, contiguous versions from
  originalVersion+1, an all-or-nothing conditional write keyed on the
  expected next version, and LoadAll sorted ascending by
  (aggregateID, version).
-/

namespace EhDynamo

/-! ## Event store data model -/

/-- Modelled from the spec: a stored event
{aggregateID, aggregateType, version, eventType, payload, timestamp}. -/
structure StoredEvent where
  aggregateID : String
  aggregateType : String
  version : Nat
  eventType : String
  payload : String
  timestamp : Nat
deriving DecidableEq

/-- Modelled from the spec: the event-store error kinds that Save can
produce (invalid event, concurrency conflict). -/
inductive ESError
  | invalidEvent
  | concurrencyConflict
deriving DecidableEq

/-- A physical event table: events keyed by (aggregateID, version). -/
abbrev Table := List StoredEvent

/-- Modelled from the spec: validation (a) of Save, all events of a batch
share one aggregateID and one aggregateType. -/
def sameAggregate : List StoredEvent → Bool
  | [] => true
  | e :: rest =>
      rest.all (fun f => f.aggregateID == e.aggregateID && f.aggregateType == e.aggregateType)

/-- Modelled from the spec: validation (b) of Save, the versions of the
batch form the contiguous run v+1, v+2, ... -/
def versionsContiguous : List StoredEvent → Nat → Bool
  | [], _ => true
  | e :: rest, v => e.version == v + 1 && versionsContiguous rest (v + 1)

/-- Whether the table already holds an item with key (aggregateID, version). -/
def containsKey (t : Table) (aid : String) (v : Nat) : Bool :=
  t.any (fun e => e.aggregateID == aid && e.version == v)

/-- Whether some event of the batch collides with an existing key: the
per-item conditional write (attribute-not-exists on the expected version)
would be rejected for that item. -/
def anyKeyExists (t : Table) (evs : List StoredEvent) : Bool :=
  evs.any (fun e => containsKey t e.aggregateID e.version)

/-- Modelled from the spec: EventStore.Save on one namespace table.
It validates (a) one aggregateID/aggregateType per batch, rejecting
mismatches with the invalid-event error and persisting nothing; then (b)
versions contiguous from originalVersion+1, rejecting gaps with
ConcurrencyConflict; then performs the conditional write: if any item of
the batch is rejected by the key-already-exists precondition the whole
batch is rejected with ConcurrencyConflict and nothing becomes visible
(all-or-nothing), otherwise all events are appended.  The returned table
is unchanged on every error. -/
def saveEvents (t : Table) (evs : List StoredEvent) (originalVersion : Nat) :
    Table × Option ESError :=
  if !(sameAggregate evs) then (t, some .invalidEvent)
  else if !(versionsContiguous evs originalVersion) then (t, some .concurrencyConflict)
  else if anyKeyExists t evs then (t, some .concurrencyConflict)
  else (t ++ evs, none)

/-- Ascending order on events by the pair (aggregateID, version):
lexicographic, aggregateID first. -/
def eventLE (e f : StoredEvent) : Prop :=
  if e.aggregateID = f.aggregateID then e.version ≤ f.version
  else e.aggregateID ≤ f.aggregateID

instance : DecidableRel eventLE := fun e f => by
  unfold eventLE; infer_instance

instance : IsTotal StoredEvent eventLE := by
  constructor
  intro a b
  unfold eventLE
  by_cases h : a.aggregateID = b.aggregateID
  · rw [if_pos h, if_pos h.symm]
    exact Nat.le_total _ _
  · rw [if_neg h, if_neg (Ne.symm h)]
    exact le_total _ _

instance : IsTrans StoredEvent eventLE := by
  constructor
  intro a b c hab hbc
  unfold eventLE at hab hbc ⊢
  by_cases h1 : a.aggregateID = b.aggregateID <;>
    by_cases h2 : b.aggregateID = c.aggregateID
  · rw [if_pos h1] at hab
    rw [if_pos h2] at hbc
    rw [if_pos (h1.trans h2)]
    exact hab.trans hbc
  · rw [if_pos h1] at hab
    rw [if_neg h2] at hbc
    have hne : a.aggregateID ≠ c.aggregateID := fun h => h2 (h1.symm.trans h)
    rw [if_neg hne, h1]
    exact hbc
  · rw [if_neg h1] at hab
    rw [if_pos h2] at hbc
    have hne : a.aggregateID ≠ c.aggregateID := fun h => h1 (h.trans h2.symm)
    rw [if_neg hne, ← h2]
    exact hab
  · rw [if_neg h1] at hab
    rw [if_neg h2] at hbc
    by_cases h3 : a.aggregateID = c.aggregateID
    · have hba : b.aggregateID ≤ a.aggregateID := by
        rw [h3]
        exact hbc
      exact absurd (le_antisymm hab hba) h1
    · rw [if_neg h3]
      exact hab.trans hbc

/-- Modelled from the spec: EventStore.LoadAll on one namespace table,
every event across all aggregates, ordered ascending by
(aggregateID, version). -/
def loadAll (t : Table) : List StoredEvent :=
  List.insertionSort eventLE t

/-- Modelled from the spec: EventStore.Load, one aggregate's stream in
ascending version order. -/
def load (t : Table) (aggregateID : String) : List StoredEvent :=
  (loadAll t).filter (fun e => e.aggregateID == aggregateID)

/-! ## Namespace routing -/

/-- Modelled from the spec: the logical namespace carried by the call
context; a context without a namespace maps to the default namespace. -/
def namespaceFromContext (ctx : Option String) : String :=
  ctx.getD "default"

/-- Modelled from the spec: the physical table name for an operation is
the configured table-name prefix followed by the namespace extracted from
the call context. -/
def tableNameFor (pre : String) (ctx : Option String) : String :=
  pre ++ namespaceFromContext ctx

/-- The whole backend: one physical table per table name. -/
abbrev ESState := String → Table

/-- Modelled from the spec: EventStore.Save routed to the namespace's
table; only the table named by the call context is touched. -/
def saveNS (pre : String) (s : ESState) (ctx : Option String)
    (evs : List StoredEvent) (v : Nat) : ESState × Option ESError :=
  let name := tableNameFor pre ctx
  let r := saveEvents (s name) evs v
  (fun n => if n = name then r.1 else s n, r.2)

/-- Modelled from the spec: EventStore.LoadAll routed to the namespace's
table. -/
def loadAllNS (pre : String) (s : ESState) (ctx : Option String) : List StoredEvent :=
  loadAll (s (tableNameFor pre ctx))

/-! ## Entity repository (embedded from repo.go)

The table service (guregu/dynamo over DynamoDB) is the external
collaborator; its calls are embedded as functions over a table represented
as a list of entities keyed by id.  A Boolean fault flag injects a failing
table-service call (the err-is-not-nil branches of the Go code); fault set
to false is the normal behaviour of the service. -/

/-- Table-service level errors: the item was absent, or the call itself
failed (network, throttling, ...). -/
inductive StoreErr
  | notFound
  | serviceFailure
deriving DecidableEq

/-- The base errors the Go code attaches to eh.RepoError.BaseErr:
eh.ErrMissingEntityID, or an underlying table-service error. -/
inductive BaseError
  | missingEntityID
  | store (e : StoreErr)
deriving DecidableEq

/-- The eh.RepoError.Err kinds the Go code uses: ErrModelNotSet,
eh.ErrEntityNotFound, eh.ErrCouldNotSaveEntity. -/
inductive ErrKind
  | modelNotSet
  | entityNotFound
  | couldNotSaveEntity
deriving DecidableEq

/-- eh.RepoError as built by repo.go: the kind, the optional base error
and the namespace from the call context. -/
structure RepoError where
  err : ErrKind
  baseErr : Option BaseError
  ns : String
deriving DecidableEq

/-- An entity: id is EntityID() rendered as a string, the empty string
standing for uuid.Nil; content stands for the caller-defined attributes. -/
structure Entity where
  id : String
  content : String
deriving DecidableEq

/-- The repository instance: factoryFn records whether SetEntityFactory
installed a non-nil factory (the only thing repo.go branches on). -/
structure Repo where
  factoryFn : Bool

/-- table.Get(id).Consistent(true).One: point read by partition key;
errors with notFound when no item has the id, with serviceFailure when
the call fails. -/
def tsGet (fault : Bool) (t : List Entity) (id : String) : Except StoreErr Entity :=
  if fault then .error .serviceFailure
  else
    match t.find? (fun e => e.id == id) with
    | some e => .ok e
    | none => .error .notFound

/-- DynamoDB Put: unconditional upsert by partition key. -/
def upsert (t : List Entity) (e : Entity) : List Entity :=
  if t.any (fun x => x.id == e.id) then t.map (fun x => if x.id == e.id then e else x)
  else t ++ [e]

/-- table.Put(entity).Run. -/
def tsPut (fault : Bool) (t : List Entity) (e : Entity) : Except StoreErr (List Entity) :=
  if fault then .error .serviceFailure else .ok (upsert t e)

/-- table.Delete(id).Run: repo.go attaches no condition expression, so
this is DynamoDB's unconditional DeleteItem, which succeeds whether or
not an item with the key exists. -/
def tsDelete (fault : Bool) (t : List Entity) (id : String) : Except StoreErr (List Entity) :=
  if fault then .error .serviceFailure
  else .ok (t.filter (fun e => !(e.id == id)))

/-- The entities yielded by the scan iterator loop of repo.go
(for iter.Next(entity) \{...\}): failAfter k means the scan fails after
yielding k items, upon which Next returns false and the loop ends; the
iterator's error is never examined by repo.go. -/
def iterCollect : Option Nat → List Entity → List Entity
  | _, [] => []
  | some 0, _ => []
  | some (k + 1), e :: rest => e :: iterCollect (some k) rest
  | none, e :: rest => e :: iterCollect none rest

namespace Repo

/-- Repo.Find of repo.go. -/
def Find (r : Repo) (fault : Bool) (t : List Entity) (ns id : String) :
    Except RepoError Entity :=
  if r.factoryFn = false then .error ⟨.modelNotSet, none, ns⟩
  else
    match tsGet fault t id with
    | .ok e => .ok e
    | .error err => .error ⟨.entityNotFound, some (.store err), ns⟩

/-- Repo.FindAll of repo.go; result is the new entity list or the error. -/
def FindAll (r : Repo) (failAfter : Option Nat) (t : List Entity) (ns : String) :
    Except RepoError (List Entity) :=
  if r.factoryFn = false then .error ⟨.modelNotSet, none, ns⟩
  else .ok (iterCollect failAfter t)

/-- Repo.FindWithFilter of repo.go: the filter expression is opaque and
applied by the table service, embedded as the predicate p. -/
def FindWithFilter (r : Repo) (failAfter : Option Nat) (p : Entity → Bool)
    (t : List Entity) (ns : String) : Except RepoError (List Entity) :=
  if r.factoryFn = false then .error ⟨.modelNotSet, none, ns⟩
  else .ok (iterCollect failAfter (t.filter p))

/-- Repo.Save of repo.go; returns the table after the call and the error
if any (the table is unchanged whenever an error is returned). -/
def Save (fault : Bool) (t : List Entity) (ns : String) (e : Entity) :
    List Entity × Option RepoError :=
  if e.id = "" then (t, some ⟨.couldNotSaveEntity, some .missingEntityID, ns⟩)
  else
    match tsPut fault t e with
    | .ok t2 => (t2, none)
    | .error err => (t, some ⟨.couldNotSaveEntity, some (.store err), ns⟩)

/-- Repo.Remove of repo.go. -/
def Remove (fault : Bool) (t : List Entity) (ns id : String) :
    List Entity × Option RepoError :=
  match tsDelete fault t id with
  | .ok t2 => (t2, none)
  | .error err => (t, some ⟨.entityNotFound, some (.store err), ns⟩)

end Repo

/-! ## Helper lemmas -/

theorem iterCollect_nil (failAfter : Option Nat) : iterCollect failAfter [] = [] := by
  cases failAfter with
  | none => rfl
  | some k => cases k <;> rfl

theorem iterCollect_none (t : List Entity) : iterCollect none t = t := by
  induction t with
  | nil => rfl
  | cons e rest ih => simp [iterCollect, ih]

theorem iterCollect_some (k : Nat) (t : List Entity) : iterCollect (some k) t = t.take k := by
  induction t generalizing k with
  | nil => simp [iterCollect_nil]
  | cons e rest ih =>
      cases k with
      | zero => rfl
      | succ k => simp [iterCollect, ih, List.take_succ_cons]

theorem filter_take_filter (p : Entity → Bool) (t : List Entity) (k : Nat) :
    ((t.filter p).take k).filter p = (t.filter p).take k := by
  rw [List.filter_eq_self]
  intro a ha
  exact List.of_mem_filter (List.take_subset k (t.filter p) ha)

/-! ## Claims about the entity repository -/

/-- C5: Repo.Save with an empty identifier returns the MissingID base
error wrapped in the could-not-save-entity (SaveFailed) error carrying
the context namespace, and issues no write (the table is unchanged);
with a non-empty identifier Save either succeeds as an upsert or, when
the underlying put fails, returns SaveFailed wrapping the store error
with the table unchanged. -/
theorem repo_save_missing_id_and_upsert (fault : Bool) (t : List Entity) (ns : String)
    (e : Entity) :
    (e.id = "" →
      Repo.Save fault t ns e = (t, some ⟨.couldNotSaveEntity, some .missingEntityID, ns⟩)) ∧
    (e.id ≠ "" → fault = false → Repo.Save fault t ns e = (upsert t e, none)) ∧
    (e.id ≠ "" → fault = true →
      Repo.Save fault t ns e =
        (t, some ⟨.couldNotSaveEntity, some (.store .serviceFailure), ns⟩)) := by
  refine ⟨fun h => ?_, fun h hf => ?_, fun h hf => ?_⟩
  · simp [Repo.Save, h]
  · simp [Repo.Save, tsPut, h, hf]
  · simp [Repo.Save, tsPut, h, hf]

/-- C5 witness: the three branches at concrete inputs. -/
theorem repo_save_missing_id_and_upsert_witness :
    Repo.Save false [] "default" ⟨"", "c"⟩ =
      ([], some ⟨.couldNotSaveEntity, some .missingEntityID, "default"⟩) ∧
    Repo.Save false [] "default" ⟨"id1", "c"⟩ = (upsert [] ⟨"id1", "c"⟩, none) ∧
    Repo.Save true [] "default" ⟨"id1", "c"⟩ =
      ([], some ⟨.couldNotSaveEntity, some (.store .serviceFailure), "default"⟩) :=
  ⟨(repo_save_missing_id_and_upsert false [] "default" ⟨"", "c"⟩).1 rfl,
   (repo_save_missing_id_and_upsert false [] "default" ⟨"id1", "c"⟩).2.1 (by decide) rfl,
   (repo_save_missing_id_and_upsert true [] "default" ⟨"id1", "c"⟩).2.2 (by decide) rfl⟩

/-- C7 counterexample: Repo.Remove of an id absent from the table (here
the empty table) returns no error at all: the unconditional delete
succeeds, so delete-of-absent is a silent no-op, not a NotFound error as
the claim states. -/
theorem repo_remove_absent_id_succeeds :
    Repo.Remove false [] "default" "id1" = ([], none) := rfl

/-- C7 amended: Repo.Remove issues an unconditional delete; when the
delete call succeeds Remove returns no error whether or not an item with
the id existed (removing it when present), and it returns the
entity-not-found error kind wrapping the underlying store error exactly
when the delete call itself fails. -/
theorem repo_remove_classification (fault : Bool) (t : List Entity) (ns id : String) :
    (fault = false →
      Repo.Remove fault t ns id = (t.filter (fun e => !(e.id == id)), none)) ∧
    (fault = true →
      Repo.Remove fault t ns id =
        (t, some ⟨.entityNotFound, some (.store .serviceFailure), ns⟩)) := by
  refine ⟨fun hf => ?_, fun hf => ?_⟩ <;> simp [Repo.Remove, tsDelete, hf]

/-- C7 amended witness: removing a present id deletes it; a failing
delete call reports the entity-not-found kind. -/
theorem repo_remove_classification_witness :
    Repo.Remove false [⟨"id1", "c"⟩] "default" "id1" =
      (List.filter (fun e => !(e.id == "id1")) [⟨"id1", "c"⟩], none) ∧
    Repo.Remove true [⟨"id1", "c"⟩] "default" "id1" =
      ([⟨"id1", "c"⟩], some ⟨.entityNotFound, some (.store .serviceFailure), "default"⟩) :=
  ⟨(repo_remove_classification false [⟨"id1", "c"⟩] "default" "id1").1 rfl,
   (repo_remove_classification true [⟨"id1", "c"⟩] "default" "id1").2 rfl⟩

/-- C6 counterexample: an item for the id exists in the table, yet a
failing table-service read makes Repo.Find return the entity-not-found
error kind: the code wraps every read error in eh.ErrEntityNotFound and
has no QueryFailed classification, so NotFound is not reserved for the
no-item case. -/
theorem repo_find_misclassifies_read_failure :
    List.find? (fun e => e.id == "id1") [Entity.mk "id1" "c"] = some (Entity.mk "id1" "c") ∧
    Repo.Find ⟨true⟩ true [Entity.mk "id1" "c"] "default" "id1" =
      .error ⟨.entityNotFound, some (.store .serviceFailure), "default"⟩ :=
  ⟨rfl, rfl⟩

/-- C6 amended: Repo.Find fails with the model-not-set
(ModelNotConfigured) error when no factory is installed; with a factory
and a healthy table service, the strongly consistent point read returns
the item when one exists for the id and fails with the
entity-not-found kind exactly when none exists; and when the read call
itself fails for any other reason, the error is also reported with the
entity-not-found kind wrapping the underlying store error, not as a
distinct QueryFailed kind. -/
theorem repo_find_classification (fault : Bool) (t : List Entity) (ns id : String) :
    Repo.Find ⟨false⟩ fault t ns id = .error ⟨.modelNotSet, none, ns⟩ ∧
    (t.find? (fun e => e.id == id) = none →
      Repo.Find ⟨true⟩ false t ns id =
        .error ⟨.entityNotFound, some (.store .notFound), ns⟩) ∧
    (∀ e, t.find? (fun e => e.id == id) = some e → Repo.Find ⟨true⟩ false t ns id = .ok e) ∧
    Repo.Find ⟨true⟩ true t ns id =
      .error ⟨.entityNotFound, some (.store .serviceFailure), ns⟩ := by
  refine ⟨?_, fun h => ?_, fun e h => ?_, ?_⟩
  · simp [Repo.Find]
  · simp [Repo.Find, tsGet, h]
  · simp [Repo.Find, tsGet, h]
  · simp [Repo.Find, tsGet]

/-- C6 amended witness: the four branches at concrete inputs. -/
theorem repo_find_classification_witness :
    Repo.Find ⟨false⟩ false [⟨"id1", "c"⟩] "n" "id1" = .error ⟨.modelNotSet, none, "n"⟩ ∧
    Repo.Find ⟨true⟩ false [] "n" "id1" =
      .error ⟨.entityNotFound, some (.store .notFound), "n"⟩ ∧
    Repo.Find ⟨true⟩ false [⟨"id1", "c"⟩] "n" "id1" = .ok ⟨"id1", "c"⟩ ∧
    Repo.Find ⟨true⟩ true [⟨"id1", "c"⟩] "n" "id1" =
      .error ⟨.entityNotFound, some (.store .serviceFailure), "n"⟩ :=
  ⟨(repo_find_classification false [⟨"id1", "c"⟩] "n" "id1").1,
   (repo_find_classification false [] "n" "id1").2.1 rfl,
   (repo_find_classification false [⟨"id1", "c"⟩] "n" "id1").2.2.1 ⟨"id1", "c"⟩ rfl,
   (repo_find_classification true [⟨"id1", "c"⟩] "n" "id1").2.2.2⟩

/-- C8: with a factory installed, Repo.FindAll on the empty table returns
the empty sequence with no error (for every scan outcome), and without a
factory it fails with the model-not-set (ModelNotConfigured) error. -/
theorem repo_findall_empty_table (ns : String) (failAfter : Option Nat) (t : List Entity) :
    Repo.FindAll ⟨false⟩ failAfter t ns = .error ⟨.modelNotSet, none, ns⟩ ∧
    Repo.FindAll ⟨true⟩ failAfter [] ns = .ok [] := by
  constructor
  · simp [Repo.FindAll]
  · simp [Repo.FindAll, iterCollect_nil]

/-- C10: once the factory is installed Repo.FindAll and
Repo.FindWithFilter always return a nil error: a scan failure after k
items ends the iteration and the k entities read so far are returned as
a successful result, indistinguishable from a complete scan of a table
holding only those entities. -/
theorem repo_scan_errors_swallowed (t : List Entity) (ns : String) (p : Entity → Bool)
    (k : Nat) :
    Repo.FindAll ⟨true⟩ (some k) t ns = .ok (t.take k) ∧
    Repo.FindWithFilter ⟨true⟩ (some k) p t ns = .ok ((t.filter p).take k) ∧
    Repo.FindAll ⟨true⟩ (some k) t ns = Repo.FindAll ⟨true⟩ none (t.take k) ns ∧
    Repo.FindWithFilter ⟨true⟩ (some k) p t ns =
      Repo.FindWithFilter ⟨true⟩ none p ((t.filter p).take k) ns := by
  refine ⟨?_, ?_, ?_, ?_⟩ <;>
    simp [Repo.FindAll, Repo.FindWithFilter, iterCollect_none, iterCollect_some,
      filter_take_filter]

/-! ## Claims about the event store -/

theorem string_append_left_cancel {p a b : String} (h : p ++ a = p ++ b) : a = b := by
  apply String.ext
  have hd : p.data ++ a.data = p.data ++ b.data := by
    have hq := congrArg String.data h
    simpa [String.data_append] using hq
  exact List.append_cancel_left hd

theorem saveEvents_ok_inv (t t1 : Table) (evs : List StoredEvent) (v : Nat)
    (h : saveEvents t evs v = (t1, none)) :
    sameAggregate evs = true ∧ versionsContiguous evs v = true ∧
      anyKeyExists t evs = false ∧ t1 = t ++ evs := by
  unfold saveEvents at h
  by_cases h1 : sameAggregate evs
  · by_cases h2 : versionsContiguous evs v
    · by_cases h3 : anyKeyExists t evs
      · simp [h1, h2, h3] at h
      · simp only [h1, h2, h3] at h
        simp at h
        exact ⟨h1, h2, by simp [h3], h.symm⟩
    · simp [h1, h2] at h
  · simp [h1] at h

theorem versionsContiguous_head (e : StoredEvent) (rest : List StoredEvent) (v : Nat)
    (h : versionsContiguous (e :: rest) v = true) : e.version = v + 1 := by
  simp [versionsContiguous] at h
  exact h.1

/-- C3: a Save batch whose events do not all carry the same aggregateID
and aggregateType is rejected with the invalid-event error and persists
nothing: the table and every aggregate stream are unchanged. -/
theorem eventstore_save_invalid_batch (t : Table) (evs : List StoredEvent) (v : Nat)
    (h : sameAggregate evs = false) :
    saveEvents t evs v = (t, some .invalidEvent) ∧
    ∀ aid, load (saveEvents t evs v).1 aid = load t aid := by
  have main : saveEvents t evs v = (t, some .invalidEvent) := by
    simp [saveEvents, h]
  exact ⟨main, fun aid => by rw [main]⟩

/-- C3 witness: a two-event batch naming two aggregateIDs is rejected
with invalid-event and the (empty) store is unchanged. -/
theorem eventstore_save_invalid_batch_witness :
    saveEvents [] [⟨"a", "T", 1, "E", "p", 0⟩, ⟨"b", "T", 1, "E", "p", 0⟩] 0 =
      ([], some .invalidEvent) ∧
    load (saveEvents [] [⟨"a", "T", 1, "E", "p", 0⟩, ⟨"b", "T", 1, "E", "p", 0⟩] 0).1 "a" =
      load [] "a" :=
  ⟨(eventstore_save_invalid_batch [] [⟨"a", "T", 1, "E", "p", 0⟩, ⟨"b", "T", 1, "E", "p", 0⟩]
      0 (by rfl)).1,
   (eventstore_save_invalid_batch [] [⟨"a", "T", 1, "E", "p", 0⟩, ⟨"b", "T", 1, "E", "p", 0⟩]
      0 (by rfl)).2 "a"⟩

/-- C4 counterexample: a batch whose versions are not contiguous from
originalVersion+1 but whose events also name two different aggregateIDs
is rejected by the earlier aggregate-identity validation with the
invalid-event error, not with ConcurrencyConflict as the claim states
for every non-contiguous batch. -/
theorem eventstore_noncontiguous_mixed_batch :
    versionsContiguous [⟨"a", "T", 1, "E", "p", 0⟩, ⟨"b", "T", 3, "E", "p", 0⟩] 0 = false ∧
    saveEvents [] [⟨"a", "T", 1, "E", "p", 0⟩, ⟨"b", "T", 3, "E", "p", 0⟩] 0 =
      ([], some .invalidEvent) ∧
    some ESError.invalidEvent ≠ some ESError.concurrencyConflict :=
  ⟨rfl, rfl, by decide⟩

/-- C4 amended: a Save batch that passes the aggregate-identity
validation but whose versions are not the contiguous run
originalVersion+1, originalVersion+2, ... fails with ConcurrencyConflict
and no event of the batch becomes visible: the table, and hence LoadAll,
are unchanged. -/
theorem eventstore_save_noncontiguous (t : Table) (evs : List StoredEvent) (v : Nat)
    (hsame : sameAggregate evs = true) (hver : versionsContiguous evs v = false) :
    saveEvents t evs v = (t, some .concurrencyConflict) ∧
    loadAll (saveEvents t evs v).1 = loadAll t := by
  have main : saveEvents t evs v = (t, some .concurrencyConflict) := by
    simp [saveEvents, hsame, hver]
  exact ⟨main, by rw [main]⟩

/-- C4 amended witness: a single-event batch at version 2 with expected
prior version 0 fails with ConcurrencyConflict and LoadAll of the store
is unchanged. -/
theorem eventstore_save_noncontiguous_witness :
    saveEvents [] [⟨"a", "T", 2, "E", "p", 0⟩] 0 = ([], some .concurrencyConflict) ∧
    loadAll (saveEvents [] [⟨"a", "T", 2, "E", "p", 0⟩] 0).1 = loadAll [] :=
  ⟨(eventstore_save_noncontiguous [] [⟨"a", "T", 2, "E", "p", 0⟩] 0 (by rfl) (by rfl)).1,
   (eventstore_save_noncontiguous [] [⟨"a", "T", 2, "E", "p", 0⟩] 0 (by rfl) (by rfl)).2⟩

/-- C1: the conditional write is atomic at the storage layer, so two
concurrent Save calls serialize; this states the race in either
serialization order: whenever one Save for aggregate a with expected
prior version v has succeeded (turning table t into t1), the competing
Save for the same aggregate with the same v, arriving next, fails with
ConcurrencyConflict, leaves the table at t1 and none of its events are
visible to a subsequent LoadAll or Load.  Hence of two such concurrent
calls at most one succeeds. -/
theorem eventstore_concurrent_save_conflict (t t1 : Table) (evs1 evs2 : List StoredEvent)
    (v : Nat) (a : String)
    (h1 : saveEvents t evs1 v = (t1, none))
    (hne1 : evs1 ≠ []) (hne2 : evs2 ≠ [])
    (ha1 : ∀ e ∈ evs1, e.aggregateID = a)
    (ha2 : ∀ e ∈ evs2, e.aggregateID = a)
    (hsame2 : sameAggregate evs2 = true) :
    saveEvents t1 evs2 v = (t1, some .concurrencyConflict) ∧
    loadAll (saveEvents t1 evs2 v).1 = loadAll t1 ∧
    load (saveEvents t1 evs2 v).1 a = load t1 a := by
  obtain ⟨hs1, hc1, hk1, ht1⟩ := saveEvents_ok_inv t t1 evs1 v h1
  have main : saveEvents t1 evs2 v = (t1, some .concurrencyConflict) := by
    by_cases hc2 : versionsContiguous evs2 v
    · cases evs1 with
      | nil => exact absurd rfl hne1
      | cons e r1 =>
          cases evs2 with
          | nil => exact absurd rfl hne2
          | cons f r2 =>
              have hev : e.version = v + 1 := versionsContiguous_head e r1 v hc1
              have hfv : f.version = v + 1 := versionsContiguous_head f r2 v hc2
              have hkey : containsKey t1 f.aggregateID f.version = true := by
                have hea : e.aggregateID = a := ha1 e (List.mem_cons_self e r1)
                have hfa : f.aggregateID = a := ha2 f (List.mem_cons_self f r2)
                have hmem : e ∈ t1 := by
                  rw [ht1]
                  exact List.mem_append_right t (List.mem_cons_self e r1)
                simp [containsKey, List.any_eq_true]
                exact ⟨e, hmem, by rw [hea, hfa], by rw [hev, hfv]⟩
              have hany : anyKeyExists t1 (f :: r2) = true := by
                simp [anyKeyExists, List.any_eq_true]
                exact Or.inl hkey
              simp [saveEvents, hsame2, hc2, hany]
    · simp [saveEvents, hsame2, hc2]
  exact ⟨main, by rw [main], by rw [main]⟩

/-- C1 witness: on the empty store, a first Save of version 1 for
aggregate a with expected prior version 0 succeeds; the competing Save
of a version-1 event for the same aggregate with the same expected prior
version then fails with ConcurrencyConflict and the store still holds
only the winner's event. -/
theorem eventstore_concurrent_save_conflict_witness :
    saveEvents [] [⟨"a", "T", 1, "E", "p", 0⟩] 0 = ([⟨"a", "T", 1, "E", "p", 0⟩], none) ∧
    saveEvents [⟨"a", "T", 1, "E", "p", 0⟩] [⟨"a", "T", 1, "E", "q", 0⟩] 0 =
      ([⟨"a", "T", 1, "E", "p", 0⟩], some .concurrencyConflict) :=
  ⟨rfl,
   (eventstore_concurrent_save_conflict [] [⟨"a", "T", 1, "E", "p", 0⟩]
      [⟨"a", "T", 1, "E", "p", 0⟩] [⟨"a", "T", 1, "E", "q", 0⟩] 0 "a" rfl (by decide)
      (by decide) (by decide) (by decide) (by rfl)).1⟩

/-- C9: LoadAll of a namespace returns exactly the events stored in that
namespace's table (a permutation of its contents, so every stored event
of every aggregate appears), ordered ascending by the lexicographic
order on the pair (aggregateID, version); in particular two appended
events with versions 1 and 2 for one aggregate come back in ascending
version order. -/
theorem eventstore_loadall_sorted (pre : String) (s : ESState) (ctx : Option String) :
    List.Perm (loadAllNS pre s ctx) (s (tableNameFor pre ctx)) ∧
    List.Sorted eventLE (loadAllNS pre s ctx) :=
  ⟨List.perm_insertionSort eventLE (s (tableNameFor pre ctx)),
   List.sorted_insertionSort eventLE (s (tableNameFor pre ctx))⟩

/-- C2: the physical table used by an event-store operation is the
configured prefix followed by the namespace taken from the call context,
a context without a namespace mapping to the default table; and
namespaces are isolated: a Save performed under namespace B (whatever
its outcome) never changes what LoadAll returns under a different
namespace A. -/
theorem eventstore_namespace_isolation (pre nsv : String) (s : ESState)
    (ctxA ctxB : Option String) (evs : List StoredEvent) (v : Nat) :
    tableNameFor pre (some nsv) = pre ++ nsv ∧
    tableNameFor pre none = pre ++ "default" ∧
    (namespaceFromContext ctxA ≠ namespaceFromContext ctxB →
      loadAllNS pre (saveNS pre s ctxB evs v).1 ctxA = loadAllNS pre s ctxA) := by
  refine ⟨rfl, rfl, fun hns => ?_⟩
  have hname : tableNameFor pre ctxA ≠ tableNameFor pre ctxB := by
    intro h
    exact hns (string_append_left_cancel h)
  simp only [loadAllNS, saveNS]
  rw [if_neg hname]

/-- C2 witness: a Save under namespace ns does not change LoadAll under
the default namespace. -/
theorem eventstore_namespace_isolation_witness :
    loadAllNS "evh_"
      (saveNS "evh_" (fun _ => []) (some "ns") [⟨"a", "T", 1, "E", "p", 0⟩] 0).1 none =
    loadAllNS "evh_" (fun _ => []) none :=
  (eventstore_namespace_isolation "evh_" "ns" (fun _ => []) none (some "ns")
    [⟨"a", "T", 1, "E", "p", 0⟩] 0).2.2 (by decide)

end EhDynamo
